import Mathlib

/-!
Shallow embedding of the interview-practice application's orchestration core
(question generation, retry policy, filename sanitization, interview session
state machine, transcript persistence), together with theorems checking the
natural-language specification against it.

The embedding works over an ASCII fragment of Python's string operations:
whitespace, title-casing, alphanumeric tests and regular-expression
substitutions are modelled character by character on lists of characters.
-/

deriving instance DecidableEq for Except

namespace InterviewPractice

/-! ## Character-level helpers (Python `str` / `re` fragment) -/

/-- The whitespace characters recognised by Python's regex class and strip
(ASCII fragment): space, tab, newline, carriage return, vertical tab, form feed. -/
def pyIsSpace (c : Char) : Bool :=
  c == ' ' || c == '\t' || c == '\n' || c == Char.ofNat 13 || c == Char.ofNat 11 || c == Char.ofNat 12

/-- The characters removed by the generator's filename sanitizer: the regex
class of the nine path-unsafe characters (34 is the double quote, 92 the backslash). -/
def pathUnsafe (c : Char) : Bool :=
  c == '<' || c == '>' || c == ':' || c == Char.ofNat 34 || c == '/' ||
    c == Char.ofNat 92 || c == '|' || c == '?' || c == '*'

/-- Character class of the second sanitizer regex tail: whitespace or a slash. -/
def wsOrSlash (c : Char) : Bool := pyIsSpace c || c == '/'

/-- Whether a list of characters begins with a whitespace-or-slash character. -/
def headWsOrSlash : List Char → Bool
  | [] => false
  | d :: _ => wsOrSlash d

/-- Python list-strip of leading whitespace followed by trailing whitespace
needs a structural right-strip: remove trailing whitespace characters. -/
def rstrip : List Char → List Char
  | [] => []
  | c :: rest =>
    if rstrip rest = [] then (if pyIsSpace c then [] else [c]) else c :: rstrip rest

/-- Python str.strip on a character list: drop leading then trailing whitespace. -/
def pyStripL (l : List Char) : List Char := rstrip (l.dropWhile pyIsSpace)

/-- Python str.strip on strings. -/
def pyStrip (s : String) : String := String.mk (pyStripL s.data)

/-! ## The generator's filename sanitizer, sanitize_filename -/

/-- First sanitizer step: replace each of the nine path-unsafe characters with
an underscore (the regex substitution with class of unsafe characters). -/
def step1 (l : List Char) : List Char := l.map fun c => if pathUnsafe c then '_' else c

/-- Second sanitizer step, the substitution replacing each maximal run that
starts with a whitespace character and continues with at least one further
whitespace-or-slash character by a single underscore.  The Boolean flag is true
while inside a run that has already been replaced. -/
def step2Aux : Bool → List Char → List Char
  | _, [] => []
  | true, c :: rest =>
    if wsOrSlash c then step2Aux true rest else c :: step2Aux false rest
  | false, c :: rest =>
    if pyIsSpace c && headWsOrSlash rest then '_' :: step2Aux true rest
    else c :: step2Aux false rest

/-- Second sanitizer step at the start of the scan. -/
def step2 (l : List Char) : List Char := step2Aux false l

/-- Whether a list of characters begins with a whitespace character. -/
def headIsWs : List Char → Bool
  | [] => false
  | d :: _ => pyIsSpace d

/-- No two adjacent whitespace characters occur in the list: the shape
invariant of sanitizer outputs used to reason about the run-collapsing step. -/
def noAdjWsB : List Char → Bool
  | a :: b :: rest => (!(pyIsSpace a && pyIsSpace b)) && noAdjWsB (b :: rest)
  | _ => true

/-- Third sanitizer step after stripping: replace each remaining space with an
underscore (only the space character, not other whitespace). -/
def replaceSpace (l : List Char) : List Char := l.map fun c => if c == ' ' then '_' else c

/-- The fallback filename used when sanitization leaves an empty string. -/
def unknownChars : List Char := ['u', 'n', 'k', 'n', 'o', 'w', 'n']

/-- The generator's sanitize_filename on character lists: replace unsafe
characters, collapse whitespace runs, strip, replace spaces, truncate to 50
characters, and fall back to a placeholder when empty. -/
def sanitizeList (l : List Char) : List Char :=
  let r := ((replaceSpace (pyStripL (step2 (step1 l)))).take 50)
  if r = [] then unknownChars else r

/-- The generator's sanitize_filename on strings. -/
def sanitize_filename (s : String) : String := String.mk (sanitizeList s.data)

/-- The session runner's results-filename sanitizer: keep alphanumeric
characters and replace every other character with an underscore. -/
def resultsSanitize (s : String) : String :=
  String.mk (s.data.map fun c => if c.isAlphanum then c else '_')

/-! ## Configuration validation (the JobConfig field validators) -/

/-- Python str.title on the ASCII fragment: the first letter of each maximal
letter group is uppercased, the following letters are lowercased.  The flag
records whether the previous character was a letter. -/
def pyTitleAux : Bool → List Char → List Char
  | _, [] => []
  | prevAlpha, c :: rest =>
    (if c.isAlpha then (if prevAlpha then c.toLower else c.toUpper) else c) ::
      pyTitleAux c.isAlpha rest

/-- Python str.title on strings. -/
def pyTitle (s : String) : String := String.mk (pyTitleAux false s.data)

def MAX_JOB_DESCRIPTION_LENGTH : Nat := 20000

def MAX_ANSWER_CHARACTERS : Nat := 20000

def ALLOWED_DIFFICULTIES : List String := ["Easy", "Medium", "Hard"]

/-- The validated generation configuration; the temperature float is modelled
as a rational number. -/
structure JobConfig where
  job_description : String
  number_of_questions : Int
  difficulty_level : String
  temperature : ℚ
deriving DecidableEq

/-- Validator of the job description: strip, reject empty, reject over-long. -/
def jd_length_and_nonempty (v : String) : Except String String :=
  let v := pyStrip v
  if v = "" then Except.error "Job description cannot be empty."
  else if MAX_JOB_DESCRIPTION_LENGTH < v.length then
    Except.error "Job description is too long (>20000 characters). Please shorten it or upload a smaller file."
  else Except.ok v

/-- Validator of the question count: between 1 and 5. -/
def num_q_range (v : Int) : Except String Int :=
  if 1 ≤ v ∧ v ≤ 5 then Except.ok v
  else Except.error "Number of questions must be between 1 and 5."

/-- Validator of the difficulty: title-case, then check the allowlist; the
stored value is the title-cased form. -/
def difficulty_allowlist (v : String) : Except String String :=
  let v_title := pyTitle v
  if ALLOWED_DIFFICULTIES.contains v_title then Except.ok v_title
  else Except.error ("Invalid difficulty level: " ++ v)

/-- Validator of the temperature: between 0.0 and 2.0. -/
def temperature_range (v : ℚ) : Except String ℚ :=
  if 0 ≤ v ∧ v ≤ 2 then Except.ok v
  else Except.error "Temperature must be between 0.0 and 2.0."

/-- Construction of a JobConfig, running the four field validators; any
failure is the validation error pydantic raises. -/
def mkJobConfig (jd : String) (n : Int) (d : String) (t : ℚ) : Except String JobConfig :=
  match jd_length_and_nonempty jd with
  | Except.error m => Except.error m
  | Except.ok jd2 =>
    match num_q_range n with
    | Except.error m => Except.error m
    | Except.ok n2 =>
      match difficulty_allowlist d with
      | Except.error m => Except.error m
      | Except.ok d2 =>
        match temperature_range t with
        | Except.error m => Except.error m
        | Except.ok t2 => Except.ok ⟨jd2, n2, d2, t2⟩

/-- Validator of a submitted answer: strip, reject empty, reject over-long. -/
def answer_length_and_nonempty (v : String) : Except String String :=
  let v := pyStrip v
  if v = "" then Except.error "Answer cannot be empty."
  else if MAX_ANSWER_CHARACTERS < v.length then
    Except.error "Answer is too long (>20000 characters). Try focusing on your key points."
  else Except.ok v

/-! ## Data model: questions and feedback -/

structure Question where
  company_name : String
  job_title : String
  question : String
  difficulty_level : String
  category : String
  answer_guide : String
deriving DecidableEq

structure QuestionsList where
  questions : List Question
deriving DecidableEq

structure Feedback where
  feedback_text : String
deriving DecidableEq

/-! ## The retry policy around the structured LLM call -/

/-- The transport-level outcome of one attempt of the underlying LLM call:
either the call completed and carries the parsed payload (possibly null), or
it raised one of the transport exceptions. -/
inductive ApiOutcome (α : Type) where
  | success (output_parsed : Option α)
  | connectionError
  | timeoutError
  | rateLimitError
  | otherError (msg : String)

/-- The failure kinds a call can raise to its caller. -/
inductive CallError where
  | connection
  | timeout
  | rateLimit
  | emptyResponse
  | other (msg : String)
deriving DecidableEq

/-- The retry predicate of the policy: exactly the three transport kinds
registered with the retry decorator are transient. -/
def transientError : CallError → Bool
  | CallError.connection => true
  | CallError.timeout => true
  | CallError.rateLimit => true
  | _ => false

/-- One attempt of the call body: a completed call with a null or missing
parsed payload raises the distinct empty-response failure. -/
def safe_api_call_once {α : Type} (o : ApiOutcome α) : Except CallError α :=
  match o with
  | ApiOutcome.success (some p) => Except.ok p
  | ApiOutcome.success none => Except.error CallError.emptyResponse
  | ApiOutcome.connectionError => Except.error CallError.connection
  | ApiOutcome.timeoutError => Except.error CallError.timeout
  | ApiOutcome.rateLimitError => Except.error CallError.rateLimit
  | ApiOutcome.otherError m => Except.error (CallError.other m)

/-- The retry loop: attempt number i (0-based) with the given number of
attempts still allowed after this one; returns the final result together with
the total number of attempts made.  A failure retries only when transient and
attempts remain; otherwise it propagates unchanged. -/
def retryGo {α : Type} (outcomes : Nat → ApiOutcome α) (i : Nat) : Nat → Except CallError α × Nat
  | 0 =>
    match safe_api_call_once (outcomes i) with
    | Except.ok p => (Except.ok p, i + 1)
    | Except.error e => (Except.error e, i + 1)
  | fuel + 1 =>
    match safe_api_call_once (outcomes i) with
    | Except.ok p => (Except.ok p, i + 1)
    | Except.error e =>
      if transientError e then retryGo outcomes (i + 1) fuel
      else (Except.error e, i + 1)

def STOP_AFTER_ATTEMPTS : Nat := 4

/-- The retried call, as the decorator wraps it: up to 4 total attempts. -/
def safe_api_call {α : Type} (outcomes : Nat → ApiOutcome α) : Except CallError α × Nat :=
  retryGo outcomes 0 (STOP_AFTER_ATTEMPTS - 1)

/-! ## The question generator -/

inductive GenFailure where
  | validation (msg : String)
  | api (e : CallError)
deriving DecidableEq

/-- The externally observable side effects of one generation request. -/
inductive GenEffect where
  | apiCall
  | fileWrite (path : String)
deriving DecidableEq

def OUTPUT_DIR : String := "interview_practice_app/output"

/-- The questions output path: company and job slugs from the first question
(with placeholder fallbacks and the Undefined sentinel), sanitized, then the
raw question count and difficulty arguments embedded in the name. -/
def questionsFilePath (ql : QuestionsList) (number_of_questions : Int) (difficulty_level : String) : String :=
  let company_slug := match ql.questions.head? with
    | some q => if q.company_name ≠ "Undefined" then q.company_name else "unknown_company"
    | none => "unknown_company"
  let job_slug := match ql.questions.head? with
    | some q => if q.job_title ≠ "Undefined" then q.job_title else "unknown_role"
    | none => "unknown_role"
  OUTPUT_DIR ++ "/" ++ "questions_" ++ sanitize_filename company_slug ++ "_" ++
    sanitize_filename job_slug ++ "_" ++ toString number_of_questions ++ "_" ++
    difficulty_level ++ ".json"

/-- The generation entry point: validate the configuration, and only then
issue the retried LLM call and persist the result.  The transport behaviour of
the attempts is a parameter; the returned list records the side effects
performed (the call site reached, the file written). -/
def generate_questions (job_description : String) (number_of_questions : Int)
    (difficulty_level : String) (temperature : ℚ)
    (outcomes : Nat → ApiOutcome QuestionsList) :
    Except GenFailure QuestionsList × List GenEffect :=
  match mkJobConfig job_description number_of_questions difficulty_level temperature with
  | Except.error msg => (Except.error (GenFailure.validation msg), [])
  | Except.ok _ =>
    match safe_api_call outcomes with
    | (Except.error e, _) => (Except.error (GenFailure.api e), [GenEffect.apiCall])
    | (Except.ok ql, _) =>
      (Except.ok ql,
        [GenEffect.apiCall,
         GenEffect.fileWrite (questionsFilePath ql number_of_questions difficulty_level)])

/-! ## Answer evaluation and the session state machine -/

inductive EvalFailure where
  | validation (msg : String)
  | api (e : CallError)
deriving DecidableEq

/-- Evaluation of one answer: validate the answer payload, then issue the
retried LLM call for feedback. -/
def evaluate_answer (_question : Question) (user_answer : String)
    (outcomes : Nat → ApiOutcome Feedback) : Except EvalFailure Feedback :=
  match answer_length_and_nonempty user_answer with
  | Except.error m => Except.error (EvalFailure.validation m)
  | Except.ok _ =>
    match safe_api_call outcomes with
    | (Except.error e, _) => Except.error (EvalFailure.api e)
    | (Except.ok fb, _) => Except.ok fb

/-- One transcript entry: a question together with the submitted answer and
the feedback returned for it. -/
structure ResultEntry where
  question : Question
  user_answer : String
  feedback : Feedback
deriving DecidableEq

/-- The session state bag: current question index, accumulated transcript,
whether feedback for the current question is being shown, and whether the
results file has been saved.  The state AwaitingAnswer(i) is index i with
feedback_received false; ShowingFeedback(i) is index i with
feedback_received true. -/
structure SessionState where
  current_q_index : Nat
  interview_results : List ResultEntry
  feedback_received : Bool
  results_saved : Bool
deriving DecidableEq

/-- The submit-answer handler: an answer that strips to empty only produces a
warning and leaves the state untouched; otherwise the evaluator is called and,
on success, exactly one transcript entry is appended and the session shows
feedback.  An evaluator failure propagates with the state untouched. -/
def submit_answer (s : SessionState) (current_q : Question) (user_answer : String)
    (outcomes : Nat → ApiOutcome Feedback) : SessionState × Option EvalFailure :=
  if pyStrip user_answer ≠ "" then
    match evaluate_answer current_q user_answer outcomes with
    | Except.ok feedback =>
      ({ s with
          interview_results := s.interview_results ++ [⟨current_q, user_answer, feedback⟩],
          feedback_received := true }, none)
    | Except.error e => (s, some e)
  else (s, none)

/-- Outcome of one attempted transcript file write. -/
inductive WriteOutcome where
  | ok
  | failed
deriving DecidableEq

/-- The results output path: both name parts run through the session runner's
own sanitizer, with the timestamp embedded. -/
def resultsFilePath (first_q : Question) (timestamp : String) : String :=
  OUTPUT_DIR ++ "/" ++ "results_" ++ resultsSanitize first_q.company_name ++ "_" ++
    resultsSanitize first_q.job_title ++ "_" ++ timestamp ++ ".json"

/-- One rendering of the Completed view: with a non-empty transcript and the
saved flag unset, the transcript file write is attempted; the flag is set only
after a successful write.  The returned list holds the paths successfully
written during this rendering. -/
def renderCompleted (s : SessionState) (timestamp : String) (w : WriteOutcome) :
    SessionState × List String :=
  match s.interview_results with
  | [] => (s, [])
  | first :: _ =>
    if s.results_saved = false then
      match w with
      | WriteOutcome.ok =>
        ({ s with results_saved := true }, [resultsFilePath first.question timestamp])
      | WriteOutcome.failed => (s, [])
    else (s, [])

/-- Repeated re-rendering of the Completed view, collecting all writes. -/
def renderCompletedMany (s : SessionState) : List (String × WriteOutcome) → SessionState × List String
  | [] => (s, [])
  | (ts, w) :: rest =>
    let p1 := renderCompleted s ts w
    let p2 := renderCompletedMany p1.1 rest
    (p2.1, p1.2 ++ p2.2)

/-! ## JSON persistence of the question set -/

/-- Structured JSON values, for the persisted question file. -/
inductive Json where
  | null
  | bool (b : Bool)
  | num (n : Int)
  | str (s : String)
  | arr (items : List Json)
  | obj (fields : List (String × Json))

/-- Key lookup in a JSON object's field list. -/
def lookupField : List (String × Json) → String → Option Json
  | [], _ => none
  | (k, v) :: rest, key => if k = key then some v else lookupField rest key

def asString : Json → Option String
  | Json.str s => some s
  | _ => none

/-- Serialization of one question, as its model dump. -/
def Question.toJson (q : Question) : Json :=
  Json.obj
    [("company_name", Json.str q.company_name),
     ("job_title", Json.str q.job_title),
     ("question", Json.str q.question),
     ("difficulty_level", Json.str q.difficulty_level),
     ("category", Json.str q.category),
     ("answer_guide", Json.str q.answer_guide)]

/-- Serialization of the question set: an object with the questions array. -/
def QuestionsList.toJson (ql : QuestionsList) : Json :=
  Json.obj [("questions", Json.arr (ql.questions.map Question.toJson))]

/-- Reconstruction of one question from a JSON object, as the model
constructor applied to the decoded fields; any missing or non-string field
fails. -/
def parseQuestion (j : Json) : Option Question :=
  match j with
  | Json.obj fs => do
    let c ← (lookupField fs "company_name").bind asString
    let jt ← (lookupField fs "job_title").bind asString
    let qq ← (lookupField fs "question").bind asString
    let dl ← (lookupField fs "difficulty_level").bind asString
    let cat ← (lookupField fs "category").bind asString
    let ag ← (lookupField fs "answer_guide").bind asString
    pure ⟨c, jt, qq, dl, cat, ag⟩
  | _ => none

/-- Reconstruction of the question list; the first failing element aborts the
whole load, as the comprehension's exception does. -/
def parseQuestions : List Json → Option (List Question)
  | [] => some []
  | j :: rest =>
    match parseQuestion j, parseQuestions rest with
    | some q, some qs => some (q :: qs)
    | _, _ => none

/-- The session runner's loader: read the top-level questions array (defaulting
to an empty array when the key is absent) and decode each element. -/
def loadQuestions (j : Json) : Option (List Question) :=
  match j with
  | Json.obj fs =>
    match (lookupField fs "questions").getD (Json.arr []) with
    | Json.arr items => parseQuestions items
    | _ => none
  | _ => none

end InterviewPractice


namespace InterviewPractice

/-! ## Theorems: retry policy (spec 4.3) -/

theorem retryGo_attempts_le {α : Type} (outcomes : Nat → ApiOutcome α) :
    ∀ fuel i, (retryGo outcomes i fuel).2 ≤ i + fuel + 1 := by
  intro fuel
  induction fuel with
  | zero =>
    intro i
    unfold retryGo
    cases safe_api_call_once (outcomes i) <;> simp
  | succ fuel ih =>
    intro i
    unfold retryGo
    cases safe_api_call_once (outcomes i) with
    | ok p => simp
    | error e =>
      by_cases ht : transientError e = true
      · simp only [ht, if_true]
        have := ih (i + 1)
        omega
      · simp only [ht, if_false]
        simp

theorem retryGo_retries_only_transient {α : Type} (outcomes : Nat → ApiOutcome α) :
    ∀ fuel i k, i ≤ k → k + 2 ≤ (retryGo outcomes i fuel).2 →
      ∃ e, safe_api_call_once (outcomes k) = Except.error e ∧ transientError e = true := by
  intro fuel
  induction fuel with
  | zero =>
    intro i k hik h
    exfalso
    unfold retryGo at h
    cases heq : safe_api_call_once (outcomes i) <;> rw [heq] at h <;> simp at h <;> omega
  | succ fuel ih =>
    intro i k hik h
    unfold retryGo at h
    cases heq : safe_api_call_once (outcomes i) with
    | ok p => rw [heq] at h; simp at h; omega
    | error e =>
      rw [heq] at h
      by_cases ht : transientError e = true
      · simp only [ht, if_true] at h
        rcases Nat.lt_or_ge i k with hlt | hge
        · exact ih (i + 1) k hlt h
        · have hk : i = k := Nat.le_antisymm hik hge
          exact ⟨e, hk ▸ heq, ht⟩
      · simp only [ht, if_false] at h
        simp at h
        omega

theorem retryGo_stops_nontransient {α : Type} (outcomes : Nat → ApiOutcome α) (e : CallError)
    (h1 : safe_api_call_once (outcomes 0) = Except.error e)
    (h2 : transientError e = false) :
    safe_api_call outcomes = (Except.error e, 1) := by
  show retryGo outcomes 0 3 = (Except.error e, 1)
  unfold retryGo
  rw [h1]
  simp [h2]

/-- Claim C2: the retry wrapper around the safe API call makes at most 4 total
attempts; every retried attempt follows a transient failure (connection,
timeout or rate-limit) of the previous attempt; and a non-transient failure on
the first attempt makes exactly 1 attempt and propagates unchanged. -/
theorem C2_retry_policy {α : Type} (outcomes : Nat → ApiOutcome α) :
    (safe_api_call outcomes).2 ≤ 4 ∧
    (∀ k, k + 2 ≤ (safe_api_call outcomes).2 →
      ∃ e, safe_api_call_once (outcomes k) = Except.error e ∧ transientError e = true) ∧
    (∀ e, safe_api_call_once (outcomes 0) = Except.error e → transientError e = false →
      safe_api_call outcomes = (Except.error e, 1)) := by
  refine ⟨?_, ?_, ?_⟩
  · have h := retryGo_attempts_le outcomes 3 0
    show (retryGo outcomes 0 3).2 ≤ 4
    omega
  · intro k hk
    exact retryGo_retries_only_transient outcomes 3 0 k (Nat.zero_le k) hk
  · intro e h1 h2
    exact retryGo_stops_nontransient outcomes e h1 h2

/-- Witness for claim C2 at a concrete non-transient first failure. -/
theorem C2_witness :
    (safe_api_call (fun _ => ApiOutcome.otherError "boom") : Except CallError Feedback × Nat) =
      (Except.error (CallError.other "boom"), 1) ∧
    (safe_api_call (fun _ => ApiOutcome.otherError "boom") : Except CallError Feedback × Nat).2 ≤ 4 := by
  have h := @C2_retry_policy Feedback (fun _ => ApiOutcome.otherError "boom")
  exact ⟨h.2.2 (CallError.other "boom") rfl rfl, h.1⟩

/-- Claim C3: a call that completes at the transport level but yields an empty
or null parsed payload raises the empty-response failure, which is not one of
the transient kinds, and the retry policy surfaces it after exactly 1 attempt. -/
theorem C3_empty_response_not_retried {α : Type} (outcomes : Nat → ApiOutcome α)
    (h : outcomes 0 = ApiOutcome.success none) :
    safe_api_call outcomes = (Except.error CallError.emptyResponse, 1) ∧
    transientError CallError.emptyResponse = false := by
  constructor
  · apply retryGo_stops_nontransient outcomes CallError.emptyResponse
    · rw [h]; rfl
    · rfl
  · rfl

/-- Witness for claim C3 at a concrete empty-payload transport success. -/
theorem C3_witness :
    (safe_api_call (fun _ => ApiOutcome.success none) : Except CallError Feedback × Nat) =
      (Except.error CallError.emptyResponse, 1) := by
  exact (@C3_empty_response_not_retried Feedback (fun _ => ApiOutcome.success none) rfl).1

end InterviewPractice

namespace InterviewPractice

/-! ## Theorems: configuration validation before any network call (spec 4.1, 8) -/

theorem jd_validator_ok (s v : String) (h : jd_length_and_nonempty s = Except.ok v) :
    pyStrip s ≠ "" ∧ (pyStrip s).length ≤ MAX_JOB_DESCRIPTION_LENGTH := by
  simp only [jd_length_and_nonempty] at h
  split_ifs at h with h1 h2
  exact ⟨h1, by omega⟩

theorem num_q_validator_ok (n v : Int) (h : num_q_range n = Except.ok v) : 1 ≤ n ∧ n ≤ 5 := by
  simp only [num_q_range] at h
  split_ifs at h with h1
  exact h1

theorem difficulty_validator_ok (d v : String) (h : difficulty_allowlist d = Except.ok v) :
    ALLOWED_DIFFICULTIES.contains (pyTitle d) = true ∧ v = pyTitle d := by
  simp only [difficulty_allowlist] at h
  split_ifs at h with h1
  simp at h
  exact ⟨h1, h.symm⟩

theorem temperature_validator_ok (t v : ℚ) (h : temperature_range t = Except.ok v) :
    0 ≤ t ∧ t ≤ 2 := by
  simp only [temperature_range] at h
  split_ifs at h with h1
  exact h1

theorem mkJobConfig_ok_conditions (jd : String) (n : Int) (d : String) (t : ℚ) (cfg : JobConfig)
    (h : mkJobConfig jd n d t = Except.ok cfg) :
    (pyStrip jd ≠ "" ∧ (pyStrip jd).length ≤ MAX_JOB_DESCRIPTION_LENGTH) ∧
    (1 ≤ n ∧ n ≤ 5) ∧
    ALLOWED_DIFFICULTIES.contains (pyTitle d) = true ∧
    (0 ≤ t ∧ t ≤ 2) := by
  unfold mkJobConfig at h
  split at h
  · exact absurd h (by simp)
  · rename_i jd2 hjd
    split at h
    · exact absurd h (by simp)
    · rename_i n2 hn
      split at h
      · exact absurd h (by simp)
      · rename_i d2 hd
        split at h
        · exact absurd h (by simp)
        · rename_i t2 ht
          exact ⟨jd_validator_ok jd jd2 hjd, num_q_validator_ok n n2 hn,
                 (difficulty_validator_ok d d2 hd).1, temperature_validator_ok t t2 ht⟩

/-- Claim C1: an invalid generation configuration (job description empty after
stripping or longer than 20000 characters once stripped, question count
outside 1..5, a difficulty whose title-cased form is not allowlisted, or
temperature outside 0..2) makes generation fail with a validation error and
perform no side effect at all: no API call is attempted and no file written. -/
theorem C1_invalid_config_rejected (jd : String) (n : Int) (d : String) (t : ℚ)
    (outcomes : Nat → ApiOutcome QuestionsList)
    (h : pyStrip jd = "" ∨ MAX_JOB_DESCRIPTION_LENGTH < (pyStrip jd).length ∨
      n < 1 ∨ 5 < n ∨ ALLOWED_DIFFICULTIES.contains (pyTitle d) = false ∨ t < 0 ∨ 2 < t) :
    ∃ msg, generate_questions jd n d t outcomes = (Except.error (GenFailure.validation msg), []) := by
  cases hm : mkJobConfig jd n d t with
  | error m =>
    refine ⟨m, ?_⟩
    unfold generate_questions
    rw [hm]
  | ok cfg =>
    exfalso
    obtain ⟨⟨hc1, hc2⟩, ⟨hc3, hc4⟩, hc5, hc6, hc7⟩ := mkJobConfig_ok_conditions jd n d t cfg hm
    rcases h with h | h | h | h | h | h | h
    · exact hc1 h
    · omega
    · omega
    · omega
    · rw [h] at hc5
      exact Bool.false_ne_true hc5
    · exact absurd hc6 (not_le.mpr h)
    · exact absurd hc7 (not_le.mpr h)

/-- Witness for claim C1: a zero question count is rejected with no effects. -/
theorem C1_witness :
    ∃ msg, generate_questions "We need a product manager." 0 "Easy" 1
        (fun _ => ApiOutcome.success none) =
      (Except.error (GenFailure.validation msg), []) :=
  C1_invalid_config_rejected "We need a product manager." 0 "Easy" 1
    (fun _ => ApiOutcome.success none) (by decide)

end InterviewPractice

namespace InterviewPractice

/-! ## Theorems: session transitions and transcript persistence (spec 4.2, 8) -/

theorem evaluate_answer_ok (q : Question) (ans : String) (outcomes : Nat → ApiOutcome Feedback)
    (fb : Feedback)
    (h1 : pyStrip ans ≠ "") (h2 : (pyStrip ans).length ≤ MAX_ANSWER_CHARACTERS)
    (h3 : (safe_api_call outcomes).1 = Except.ok fb) :
    evaluate_answer q ans outcomes = Except.ok fb := by
  have hv : answer_length_and_nonempty ans = Except.ok (pyStrip ans) := by
    simp only [answer_length_and_nonempty]
    rw [if_neg h1, if_neg (Nat.not_lt.mpr h2)]
  rcases hsc : safe_api_call outcomes with ⟨r, na⟩
  rw [hsc] at h3
  have h4 : r = Except.ok fb := h3
  subst h4
  unfold evaluate_answer
  rw [hv, hsc]

/-- Claim C4: in state AwaitingAnswer(i), submitting an answer that strips to
empty leaves the whole session state (index, transcript, feedback flag)
unchanged, while submitting a non-empty answer within the length bound whose
evaluation call returns feedback appends exactly one transcript entry and
moves to ShowingFeedback(i): the feedback flag is set and the index is kept. -/
theorem C4_submit_answer_transitions (s : SessionState) (q : Question) (ans : String)
    (outcomes : Nat → ApiOutcome Feedback) :
    (pyStrip ans = "" → submit_answer s q ans outcomes = (s, none)) ∧
    (∀ fb, pyStrip ans ≠ "" → (pyStrip ans).length ≤ MAX_ANSWER_CHARACTERS →
      (safe_api_call outcomes).1 = Except.ok fb →
      submit_answer s q ans outcomes =
        ({ s with
            interview_results := s.interview_results ++ [⟨q, ans, fb⟩],
            feedback_received := true }, none)) := by
  constructor
  · intro he
    unfold submit_answer
    rw [if_neg (by simp [he])]
  · intro fb h1 h2 h3
    unfold submit_answer
    rw [if_pos h1, evaluate_answer_ok q ans outcomes fb h1 h2 h3]

/-- Witness for claim C4: a valid submission appends one entry and shows
feedback; a whitespace-only submission changes nothing. -/
theorem C4_witness :
    submit_answer ⟨0, [], false, false⟩ ⟨"Acme", "Eng", "Why?", "Easy", "general", "guide"⟩
        "because" (fun _ => ApiOutcome.success (some ⟨"good answer"⟩)) =
      (⟨0, [⟨⟨"Acme", "Eng", "Why?", "Easy", "general", "guide"⟩, "because", ⟨"good answer"⟩⟩,],
        true, false⟩, none) ∧
    submit_answer ⟨0, [], false, false⟩ ⟨"Acme", "Eng", "Why?", "Easy", "general", "guide"⟩
        "   " (fun _ => ApiOutcome.success (some ⟨"good answer"⟩)) =
      (⟨0, [], false, false⟩, none) := by
  constructor
  · exact (C4_submit_answer_transitions _ _ _ _).2 ⟨"good answer"⟩ (by decide) (by decide) rfl
  · exact (C4_submit_answer_transitions _ _ _ _).1 (by decide)

/-- Claim C5: a transcript entry exists only together with its feedback.  If
the evaluator call fails, the whole session state is unchanged (no partial
entry); in general the transcript either stays unchanged or grows by exactly
one entry holding both the answer and the feedback returned for it. -/
theorem C5_no_partial_transcript_entry (s : SessionState) (q : Question) (ans : String)
    (outcomes : Nat → ApiOutcome Feedback) :
    (∀ e, evaluate_answer q ans outcomes = Except.error e →
      (submit_answer s q ans outcomes).1 = s) ∧
    ((submit_answer s q ans outcomes).1.interview_results = s.interview_results ∨
      ∃ fb, evaluate_answer q ans outcomes = Except.ok fb ∧
        (submit_answer s q ans outcomes).1.interview_results =
          s.interview_results ++ [⟨q, ans, fb⟩]) := by
  cases hev : evaluate_answer q ans outcomes with
  | error e0 =>
    constructor
    · intro e _
      unfold submit_answer
      split_ifs with hne
      · rw [hev]
      · rfl
    · left
      unfold submit_answer
      split_ifs with hne
      · rw [hev]
      · rfl
  | ok fb =>
    constructor
    · intro e he
      exact absurd he (by simp)
    · by_cases hne : pyStrip ans ≠ ""
      · right
        refine ⟨fb, rfl, ?_⟩
        unfold submit_answer
        rw [if_pos hne, hev]
      · left
        unfold submit_answer
        rw [if_neg hne]

/-- Witness for claim C5: an evaluation that fails with an empty LLM payload
leaves the session state untouched. -/
theorem C5_witness :
    (submit_answer ⟨0, [], false, false⟩ ⟨"Acme", "Eng", "Why?", "Easy", "general", "guide"⟩
        "because" (fun _ => ApiOutcome.success none)).1 = ⟨0, [], false, false⟩ :=
  (C5_no_partial_transcript_entry _ _ _ _).1 (EvalFailure.api CallError.emptyResponse) rfl

theorem renderCompleted_saved (s : SessionState) (ts : String) (w : WriteOutcome)
    (h : s.results_saved = true) : renderCompleted s ts w = (s, []) := by
  unfold renderCompleted
  cases s.interview_results with
  | nil => rfl
  | cons a l => simp [h]

theorem renderCompletedMany_saved :
    ∀ (rs : List (String × WriteOutcome)) (s : SessionState), s.results_saved = true →
      renderCompletedMany s rs = (s, []) := by
  intro rs
  induction rs with
  | nil => intro s _; rfl
  | cons hd tl ih =>
    intro s h
    rcases hd with ⟨ts, w⟩
    simp only [renderCompletedMany]
    simp [renderCompleted_saved s ts w h, ih s h]

/-- Claim C6: with a non-empty transcript and the saved flag unset, rendering
the Completed view with a successful write persists exactly one file and sets
the saved flag only then; every subsequent re-rendering performs no further
write; a failed write leaves the flag unset, the state untouched and nothing
written. -/
theorem C6_transcript_saved_once (s : SessionState) (ts : String)
    (hne : s.interview_results ≠ []) (hun : s.results_saved = false) :
    (renderCompleted s ts WriteOutcome.ok).2.length = 1 ∧
    (renderCompleted s ts WriteOutcome.ok).1.results_saved = true ∧
    (∀ rs, renderCompletedMany (renderCompleted s ts WriteOutcome.ok).1 rs =
      ((renderCompleted s ts WriteOutcome.ok).1, [])) ∧
    (renderCompleted s ts WriteOutcome.failed).1 = s ∧
    (renderCompleted s ts WriteOutcome.failed).2 = [] := by
  rcases hl : s.interview_results with _ | ⟨first, rest⟩
  · exact absurd hl hne
  · have hok : renderCompleted s ts WriteOutcome.ok =
        ({ s with results_saved := true }, [resultsFilePath first.question ts]) := by
      unfold renderCompleted
      rw [hl]
      simp [hun]
    have hfail : renderCompleted s ts WriteOutcome.failed = (s, []) := by
      unfold renderCompleted
      rw [hl]
      simp [hun]
    refine ⟨by simp [hok], by simp [hok], ?_, by simp [hfail], by simp [hfail]⟩
    intro rs
    rw [hok]
    exact renderCompletedMany_saved rs _ rfl

/-- Witness for claim C6: a one-entry transcript is written once on first
rendering, and a failed write leaves nothing written. -/
theorem C6_witness :
    (renderCompleted ⟨1, [⟨⟨"Acme", "Eng", "Why?", "Easy", "general", "guide"⟩, "because", ⟨"good"⟩⟩]
        , true, false⟩ "20260101_0101" WriteOutcome.ok).2.length = 1 ∧
    (renderCompleted ⟨1, [⟨⟨"Acme", "Eng", "Why?", "Easy", "general", "guide"⟩, "because", ⟨"good"⟩⟩]
        , true, false⟩ "20260101_0101" WriteOutcome.failed).2 = [] := by
  constructor
  · exact (C6_transcript_saved_once _ "20260101_0101" (by decide) rfl).1
  · exact (C6_transcript_saved_once _ "20260101_0101" (by decide) rfl).2.2.2.2

end InterviewPractice

namespace InterviewPractice

/-! ## Theorems: question-set persistence round-trip (spec 8) -/

theorem parseQuestion_toJson (q : Question) : parseQuestion (Question.toJson q) = some q := rfl

theorem parseQuestions_map (qs : List Question) :
    parseQuestions (qs.map Question.toJson) = some qs := by
  induction qs with
  | nil => rfl
  | cons q rest ih => simp [parseQuestions, parseQuestion_toJson, ih]

/-- Claim C9: the persisted question file round-trips: loading the dumped
question set back (reading the top-level questions array and decoding each
question record) yields the same ordered sequence of questions. -/
theorem C9_questions_roundtrip (ql : QuestionsList) :
    loadQuestions (QuestionsList.toJson ql) = some ql.questions := by
  simp [loadQuestions, QuestionsList.toJson, lookupField, parseQuestions_map]

/-! ## Theorems: difficulty normalization (JobConfig.difficulty_allowlist) -/

/-- Claim C10: the difficulty validator accepts exactly the strings whose
title-cased form is in the Easy/Medium/Hard allowlist (so also lowercase,
uppercase and mixed-case spellings), stores the title-cased normal form, and
rejects every string whose title-cased form is outside the allowlist. -/
theorem C10_difficulty_title_normalization :
    difficulty_allowlist "easy" = Except.ok "Easy" ∧
    difficulty_allowlist "MEDIUM" = Except.ok "Medium" ∧
    difficulty_allowlist "hArD" = Except.ok "Hard" ∧
    (∀ v, ALLOWED_DIFFICULTIES.contains (pyTitle v) = true →
      difficulty_allowlist v = Except.ok (pyTitle v)) ∧
    (∀ v, ALLOWED_DIFFICULTIES.contains (pyTitle v) = false →
      difficulty_allowlist v = Except.error ("Invalid difficulty level: " ++ v)) := by
  refine ⟨by decide, by decide, by decide, ?_, ?_⟩
  · intro v hv
    simp only [difficulty_allowlist]
    rw [if_pos hv]
  · intro v hv
    simp only [difficulty_allowlist]
    rw [if_neg (fun hc => Bool.false_ne_true (hv ▸ hc))]

/-- Witness for claim C10: another lowercase spelling is accepted with the
normal form stored, and an unknown difficulty is rejected. -/
theorem C10_witness :
    difficulty_allowlist "hard" = Except.ok (pyTitle "hard") ∧
    difficulty_allowlist "Extreme" = Except.error ("Invalid difficulty level: " ++ "Extreme") := by
  constructor
  · exact C10_difficulty_title_normalization.2.2.2.1 "hard" (by decide)
  · exact C10_difficulty_title_normalization.2.2.2.2 "Extreme" (by decide)

end InterviewPractice

namespace InterviewPractice

/-! ## Theorems: character classes and the sanitizer steps (spec 4.1, 8) -/

theorem pathUnsafe_iff (c : Char) :
    pathUnsafe c = true ↔
      (c = '<' ∨ c = '>' ∨ c = ':' ∨ c = Char.ofNat 34 ∨ c = '/' ∨
        c = Char.ofNat 92 ∨ c = '|' ∨ c = '?' ∨ c = '*') := by
  unfold pathUnsafe
  simp only [Bool.or_eq_true, beq_iff_eq]
  tauto

theorem pyIsSpace_iff (c : Char) :
    pyIsSpace c = true ↔
      (c = ' ' ∨ c = '\t' ∨ c = '\n' ∨ c = Char.ofNat 13 ∨ c = Char.ofNat 11 ∨
        c = Char.ofNat 12) := by
  unfold pyIsSpace
  simp only [Bool.or_eq_true, beq_iff_eq]
  tauto

theorem alnum_not_pathUnsafe (c : Char) (h : c.isAlphanum = true) : pathUnsafe c = false := by
  cases hp : pathUnsafe c
  · rfl
  · exfalso
    rcases (pathUnsafe_iff c).1 hp with h1 | h1 | h1 | h1 | h1 | h1 | h1 | h1 | h1 <;>
      subst h1 <;> exact absurd h (by decide)

theorem alnum_not_pyIsSpace (c : Char) (h : c.isAlphanum = true) : pyIsSpace c = false := by
  cases hp : pyIsSpace c
  · rfl
  · exfalso
    rcases (pyIsSpace_iff c).1 hp with h1 | h1 | h1 | h1 | h1 | h1 <;>
      subst h1 <;> exact absurd h (by decide)

theorem wsOrSlash_iff (c : Char) : wsOrSlash c = true ↔ (pyIsSpace c = true ∨ c = '/') := by
  unfold wsOrSlash
  simp [Bool.or_eq_true, beq_iff_eq]

theorem noAdjWsB_tail (c : Char) (m : List Char) (h : noAdjWsB (c :: m) = true) :
    noAdjWsB m = true := by
  cases m with
  | nil => rfl
  | cons b r =>
    simp only [noAdjWsB, Bool.and_eq_true] at h
    exact h.2

theorem noAdjWsB_pair (c d : Char) (r : List Char) (h : noAdjWsB (c :: d :: r) = true)
    (hc : pyIsSpace c = true) : pyIsSpace d = false := by
  simp only [noAdjWsB, Bool.and_eq_true] at h
  have h1 := h.1
  rw [Bool.not_eq_true'] at h1
  cases hd : pyIsSpace d
  · rfl
  · rw [hc, hd] at h1
    simp at h1

theorem noAdjWsB_cons_of (c : Char) (m : List Char) (h : noAdjWsB m = true)
    (hc : pyIsSpace c = false ∨ headIsWs m = false) : noAdjWsB (c :: m) = true := by
  cases m with
  | nil => rfl
  | cons b r =>
    simp only [noAdjWsB, Bool.and_eq_true]
    refine ⟨?_, h⟩
    rw [Bool.not_eq_true']
    simp only [headIsWs] at hc
    rcases hc with hc | hc <;> rw [hc] <;> simp

/-! step1 lemmas -/

theorem step1_mem (l : List Char) (c : Char) (h : c ∈ step1 l) : pathUnsafe c = false := by
  unfold step1 at h
  rcases List.mem_map.1 h with ⟨a, _, rfl⟩
  by_cases hpa : pathUnsafe a = true
  · rw [if_pos hpa]
    decide
  · rw [if_neg hpa]
    cases hf : pathUnsafe a
    · rfl
    · exact absurd hf hpa

theorem step1_length (l : List Char) : (step1 l).length = l.length := List.length_map l _

theorem step1_id (l : List Char) (h : ∀ c ∈ l, pathUnsafe c = false) : step1 l = l := by
  induction l with
  | nil => rfl
  | cons a rest ih =>
    unfold step1
    simp only [List.map_cons]
    rw [if_neg (by rw [h a (by simp)]; simp)]
    have h2 := ih (fun c hc => h c (by simp [hc]))
    unfold step1 at h2
    rw [h2]

/-! step2 lemmas -/

theorem step2Aux_mem (l : List Char) : ∀ (f : Bool) (c : Char), c ∈ step2Aux f l →
    c = '_' ∨ c ∈ l := by
  induction l with
  | nil => intro f c h; cases f <;> exact absurd h (by simp [step2Aux])
  | cons a rest ih =>
    intro f c h
    cases f with
    | true =>
      simp only [step2Aux] at h
      split_ifs at h
      · rcases ih true c h with h1 | h1
        · exact Or.inl h1
        · exact Or.inr (by simp [h1])
      · rcases List.mem_cons.1 h with h1 | h1
        · exact Or.inr (by simp [h1])
        · rcases ih false c h1 with h2 | h2
          · exact Or.inl h2
          · exact Or.inr (by simp [h2])
    | false =>
      simp only [step2Aux] at h
      split_ifs at h
      · rcases List.mem_cons.1 h with h1 | h1
        · exact Or.inl h1
        · rcases ih true c h1 with h2 | h2
          · exact Or.inl h2
          · exact Or.inr (by simp [h2])
      · rcases List.mem_cons.1 h with h1 | h1
        · exact Or.inr (by simp [h1])
        · rcases ih false c h1 with h2 | h2
          · exact Or.inl h2
          · exact Or.inr (by simp [h2])

theorem step2Aux_length (l : List Char) : ∀ f, (step2Aux f l).length ≤ l.length := by
  induction l with
  | nil => intro f; cases f <;> simp [step2Aux]
  | cons a rest ih =>
    intro f
    cases f with
    | true =>
      simp only [step2Aux]
      split_ifs
      · exact Nat.le_trans (ih true) (by simp)
      · simpa using ih false
    | false =>
      simp only [step2Aux]
      split_ifs
      · simpa using ih true
      · simpa using ih false

theorem step2Aux_false_cons_not_ws (d : Char) (rest : List Char) (h : pyIsSpace d = false) :
    step2Aux false (d :: rest) = d :: step2Aux false rest := by
  simp only [step2Aux]
  rw [if_neg (by rw [h]; simp)]

theorem step2Aux_noAdjWs (l : List Char) : ∀ f, noAdjWsB (step2Aux f l) = true := by
  induction l with
  | nil => intro f; cases f <;> rfl
  | cons a rest ih =>
    intro f
    cases f with
    | true =>
      simp only [step2Aux]
      split_ifs with hw
      · exact ih true
      · refine noAdjWsB_cons_of a _ (ih false) (Or.inl ?_)
        cases hs : pyIsSpace a
        · rfl
        · exact absurd ((wsOrSlash_iff a).2 (Or.inl hs)) (by simp [hw])
    | false =>
      simp only [step2Aux]
      split_ifs with hcond
      · exact noAdjWsB_cons_of '_' _ (ih true) (Or.inl (by decide))
      · cases hs : pyIsSpace a
        · exact noAdjWsB_cons_of a _ (ih false) (Or.inl hs)
        · have hhead : headWsOrSlash rest = false := by
            cases hh : headWsOrSlash rest
            · rfl
            · exact absurd (show (pyIsSpace a && headWsOrSlash rest) = true by
                rw [hs, hh]; rfl) hcond
          cases rest with
          | nil => rfl
          | cons d rest2 =>
            have hdns : wsOrSlash d = false := by simpa [headWsOrSlash] using hhead
            have hd : pyIsSpace d = false := by
              cases hpd : pyIsSpace d
              · rfl
              · exact absurd ((wsOrSlash_iff d).2 (Or.inl hpd)) (by simp [hdns])
            refine noAdjWsB_cons_of a _ (ih false) (Or.inr ?_)
            rw [step2Aux_false_cons_not_ws d rest2 hd]
            simp only [headIsWs]
            exact hd

theorem step2Aux_false_id (l : List Char) (hs : ∀ c ∈ l, c ≠ '/')
    (ha : noAdjWsB l = true) : step2Aux false l = l := by
  induction l with
  | nil => rfl
  | cons a rest ih =>
    have htail : step2Aux false rest = rest :=
      ih (fun c hc => hs c (by simp [hc])) (noAdjWsB_tail a rest ha)
    cases hw : pyIsSpace a
    · rw [step2Aux_false_cons_not_ws a rest hw, htail]
    · have hhead : headWsOrSlash rest = false := by
        cases rest with
        | nil => rfl
        | cons d rest2 =>
          simp only [headWsOrSlash]
          cases hd : wsOrSlash d
          · rfl
          · exfalso
            rcases (wsOrSlash_iff d).1 hd with h1 | h1
            · exact absurd h1 (by rw [noAdjWsB_pair a d rest2 ha hw]; simp)
            · exact hs d (by simp [h1]) h1
      simp only [step2Aux]
      rw [if_neg (by rw [hw, hhead]; simp), htail]

end InterviewPractice

namespace InterviewPractice

/-! ## Theorems: strip, space replacement and truncation lemmas -/

theorem dropWhile_noAdjWs (p : Char → Bool) (l : List Char) (h : noAdjWsB l = true) :
    noAdjWsB (l.dropWhile p) = true := by
  induction l with
  | nil => rfl
  | cons a rest ih =>
    rw [List.dropWhile_cons]
    split_ifs
    · exact ih (noAdjWsB_tail a rest h)
    · exact h

theorem head?_dropWhile_not (p : Char → Bool) (l : List Char) :
    ∀ c, (l.dropWhile p).head? = some c → p c = false := by
  induction l with
  | nil => intro c h; simp at h
  | cons a rest ih =>
    intro c h
    rw [List.dropWhile_cons] at h
    split_ifs at h with hp
    · exact ih c h
    · rw [List.head?_cons] at h
      have hac : a = c := by injection h
      rw [← hac]
      cases hpa : p a
      · rfl
      · exact absurd hpa hp

theorem dropWhile_id_of_head (p : Char → Bool) (l : List Char)
    (h : ∀ c, l.head? = some c → p c = false) : l.dropWhile p = l := by
  cases l with
  | nil => rfl
  | cons a rest =>
    rw [List.dropWhile_cons, if_neg (by rw [h a rfl]; simp)]

theorem rstrip_mem (l : List Char) (c : Char) (h : c ∈ rstrip l) : c ∈ l := by
  induction l with
  | nil => exact absurd h (by simp [rstrip])
  | cons a rest ih =>
    unfold rstrip at h
    split_ifs at h
    · exact absurd h (by simp)
    · rw [List.mem_singleton] at h
      simp [h]
    · rcases List.mem_cons.1 h with h1 | h1
      · simp [h1]
      · exact List.mem_cons_of_mem a (ih h1)

theorem rstrip_length_le (l : List Char) : (rstrip l).length ≤ l.length := by
  induction l with
  | nil => simp [rstrip]
  | cons a rest ih =>
    unfold rstrip
    split_ifs
    · simp
    · simp
    · simpa using ih

theorem rstrip_head? (l : List Char) (c : Char) (h : (rstrip l).head? = some c) :
    l.head? = some c := by
  cases l with
  | nil => exact absurd h (by simp [rstrip])
  | cons a rest =>
    unfold rstrip at h
    split_ifs at h
    · exact absurd h (by simp)
    · rw [List.head?_cons] at h ⊢
      exact h
    · rw [List.head?_cons] at h ⊢
      exact h

theorem rstrip_noAdjWs (l : List Char) (h : noAdjWsB l = true) :
    noAdjWsB (rstrip l) = true := by
  induction l with
  | nil => rfl
  | cons a rest ih =>
    unfold rstrip
    split_ifs with h1 h2
    · rfl
    · rfl
    · refine noAdjWsB_cons_of a _ (ih (noAdjWsB_tail a rest h)) ?_
      cases hw : pyIsSpace a
      · exact Or.inl rfl
      · right
        rcases hr : rstrip rest with _ | ⟨r0, rtail⟩
        · exact absurd hr h1
        · simp only [headIsWs]
          have hr0 : rest.head? = some r0 := rstrip_head? rest r0 (by rw [hr]; rfl)
          rcases rest with _ | ⟨b, rest2⟩
          · exact absurd hr0 (by simp)
          · rw [List.head?_cons] at hr0
            have hbr : b = r0 := by injection hr0
            rw [← hbr]
            exact noAdjWsB_pair a b rest2 h hw

theorem rstrip_getLast?_not_ws (l : List Char) :
    ∀ c, (rstrip l).getLast? = some c → pyIsSpace c = false := by
  induction l with
  | nil => intro c h; exact absurd h (by simp [rstrip])
  | cons a rest ih =>
    intro c h
    unfold rstrip at h
    split_ifs at h with h1 h2
    · exact absurd h (by simp)
    · rw [show ([a] : List Char).getLast? = some a from rfl] at h
      have hac : a = c := by injection h
      rw [← hac]
      cases hw : pyIsSpace a
      · rfl
      · exact absurd hw h2
    · rcases hr : rstrip rest with _ | ⟨r0, rtail⟩
      · exact absurd hr h1
      · rw [hr, List.getLast?_cons_cons] at h
        exact ih c (by rw [hr]; exact h)

theorem rstrip_id (l : List Char)
    (h : ∀ c, l.getLast? = some c → pyIsSpace c = false) : rstrip l = l := by
  induction l with
  | nil => rfl
  | cons a rest ih =>
    cases rest with
    | nil =>
      have ha : pyIsSpace a = false := h a rfl
      show (if rstrip [] = [] then (if pyIsSpace a then [] else [a]) else a :: rstrip []) = [a]
      rw [show rstrip [] = [] from rfl, if_pos rfl, if_neg (by rw [ha]; simp)]
    | cons b rest2 =>
      have htail : rstrip (b :: rest2) = b :: rest2 :=
        ih (fun c hc => h c (by rw [List.getLast?_cons_cons]; exact hc))
      show (if rstrip (b :: rest2) = [] then (if pyIsSpace a then [] else [a])
        else a :: rstrip (b :: rest2)) = a :: b :: rest2
      rw [htail, if_neg (by simp)]

theorem pyStripL_mem (l : List Char) (c : Char) (h : c ∈ pyStripL l) : c ∈ l :=
  (List.dropWhile_sublist pyIsSpace).subset (rstrip_mem _ c h)

theorem pyStripL_length_le (l : List Char) : (pyStripL l).length ≤ l.length :=
  Nat.le_trans (rstrip_length_le _) (List.dropWhile_sublist pyIsSpace).length_le

theorem pyStripL_noAdjWs (l : List Char) (h : noAdjWsB l = true) :
    noAdjWsB (pyStripL l) = true :=
  rstrip_noAdjWs _ (dropWhile_noAdjWs pyIsSpace l h)

theorem pyStripL_head?_not_ws (l : List Char) (c : Char) (h : (pyStripL l).head? = some c) :
    pyIsSpace c = false :=
  head?_dropWhile_not pyIsSpace l c (rstrip_head? _ c h)

theorem pyStripL_getLast?_not_ws (l : List Char) (c : Char)
    (h : (pyStripL l).getLast? = some c) : pyIsSpace c = false :=
  rstrip_getLast?_not_ws _ c h

theorem pyStripL_id (l : List Char)
    (hhead : ∀ c, l.head? = some c → pyIsSpace c = false)
    (hlast : ∀ c, l.getLast? = some c → pyIsSpace c = false) : pyStripL l = l := by
  unfold pyStripL
  rw [dropWhile_id_of_head pyIsSpace l hhead, rstrip_id l hlast]

theorem replaceSpace_not_ws (a : Char) (h : pyIsSpace a = false) :
    pyIsSpace (if a == ' ' then '_' else a) = false := by
  by_cases ha : (a == ' ') = true
  · rw [if_pos ha]
    decide
  · rw [if_neg ha]
    exact h

theorem replaceSpace_mem (l : List Char) (c : Char) (h : c ∈ replaceSpace l) :
    c = '_' ∨ c ∈ l := by
  unfold replaceSpace at h
  rcases List.mem_map.1 h with ⟨a, ha, rfl⟩
  by_cases hs : (a == ' ') = true
  · rw [if_pos hs]
    exact Or.inl rfl
  · rw [if_neg hs]
    exact Or.inr ha

theorem replaceSpace_no_space (l : List Char) (c : Char) (h : c ∈ replaceSpace l) : c ≠ ' ' := by
  unfold replaceSpace at h
  rcases List.mem_map.1 h with ⟨a, _, rfl⟩
  by_cases hs : (a == ' ') = true
  · rw [if_pos hs]
    decide
  · rw [if_neg hs]
    intro hc
    rw [hc] at hs
    exact hs (by decide)

theorem replaceSpace_noAdjWs (l : List Char) (h : noAdjWsB l = true) :
    noAdjWsB (replaceSpace l) = true := by
  induction l with
  | nil => rfl
  | cons a rest ih =>
    unfold replaceSpace
    rw [List.map_cons]
    refine noAdjWsB_cons_of _ _ ?_ ?_
    · have h2 := ih (noAdjWsB_tail a rest h)
      unfold replaceSpace at h2
      exact h2
    · cases hw : pyIsSpace (if a == ' ' then '_' else a)
      · exact Or.inl rfl
      · right
        have hwa : pyIsSpace a = true := by
          cases hwa : pyIsSpace a
          · exact absurd hw (by rw [replaceSpace_not_ws a hwa]; simp)
          · rfl
        cases rest with
        | nil => rfl
        | cons b rest2 =>
          rw [List.map_cons]
          simp only [headIsWs]
          exact replaceSpace_not_ws b (noAdjWsB_pair a b rest2 h hwa)

theorem replaceSpace_id (l : List Char) (h : ∀ c ∈ l, c ≠ ' ') : replaceSpace l = l := by
  induction l with
  | nil => rfl
  | cons a rest ih =>
    unfold replaceSpace
    rw [List.map_cons]
    rw [if_neg (by simp only [beq_iff_eq]; exact h a (List.mem_cons_self a rest))]
    have h2 := ih (fun c hc => h c (by simp [hc]))
    unfold replaceSpace at h2
    rw [h2]

theorem take_noAdjWs (l : List Char) : ∀ n, noAdjWsB l = true → noAdjWsB (l.take n) = true := by
  induction l with
  | nil => intro n h; rw [List.take_nil]; rfl
  | cons a rest ih =>
    intro n h
    cases n with
    | zero => rfl
    | succ m =>
      rw [List.take_succ_cons]
      refine noAdjWsB_cons_of a _ (ih m (noAdjWsB_tail a rest h)) ?_
      cases hw : pyIsSpace a
      · exact Or.inl rfl
      · right
        cases rest with
        | nil => rw [List.take_nil]; rfl
        | cons b r2 =>
          have hb : pyIsSpace b = false := noAdjWsB_pair a b r2 h hw
          cases m with
          | zero => rfl
          | succ k =>
            rw [List.take_succ_cons]
            simp only [headIsWs]
            exact hb

theorem head?_take_succ (l : List Char) (n : Nat) : (l.take (n + 1)).head? = l.head? := by
  cases l <;> simp

end InterviewPractice

namespace InterviewPractice

/-! ## Theorems: sanitize_filename output properties and idempotence -/

theorem sanitizeList_spelled (l : List Char) :
    sanitizeList l =
      if ((replaceSpace (pyStripL (step2 (step1 l)))).take 50) = [] then unknownChars
      else ((replaceSpace (pyStripL (step2 (step1 l)))).take 50) := rfl

theorem sanitizeList_ne_nil (l : List Char) : sanitizeList l ≠ [] := by
  rw [sanitizeList_spelled]
  split_ifs with h
  · decide
  · exact h

theorem sanitizeList_length_le (l : List Char) : (sanitizeList l).length ≤ 50 := by
  rw [sanitizeList_spelled]
  split_ifs with h
  · decide
  · exact List.length_take_le 50 _

theorem sanitizeList_pathSafe (l : List Char) (c : Char) (h : c ∈ sanitizeList l) :
    pathUnsafe c = false := by
  rw [sanitizeList_spelled] at h
  split_ifs at h with he
  · have hu : ∀ x ∈ unknownChars, pathUnsafe x = false := by decide
    exact hu c h
  · have h1 : c ∈ replaceSpace (pyStripL (step2 (step1 l))) := List.mem_of_mem_take h
    rcases replaceSpace_mem _ c h1 with h2 | h2
    · rw [h2]
      decide
    · rcases step2Aux_mem (step1 l) false c (pyStripL_mem _ c h2) with h4 | h4
      · rw [h4]
        decide
      · exact step1_mem l c h4

theorem sanitizeList_no_space (l : List Char) (c : Char) (h : c ∈ sanitizeList l) : c ≠ ' ' := by
  rw [sanitizeList_spelled] at h
  split_ifs at h with he
  · have hu : ∀ x ∈ unknownChars, x ≠ ' ' := by decide
    exact hu c h
  · exact replaceSpace_no_space _ c (List.mem_of_mem_take h)

theorem sanitizeList_noAdjWs (l : List Char) : noAdjWsB (sanitizeList l) = true := by
  rw [sanitizeList_spelled]
  split_ifs with he
  · decide
  · exact take_noAdjWs _ 50
      (replaceSpace_noAdjWs _ (pyStripL_noAdjWs _ (step2Aux_noAdjWs (step1 l) false)))

theorem sanitizeList_head?_not_ws (l : List Char) (c : Char)
    (h : (sanitizeList l).head? = some c) : pyIsSpace c = false := by
  rw [sanitizeList_spelled] at h
  split_ifs at h with he
  · have hc : c = 'u' := by
      rw [show unknownChars.head? = some 'u' from rfl] at h
      injection h with h
      exact h.symm
    rw [hc]
    decide
  · rw [show (50 : Nat) = 49 + 1 from rfl, head?_take_succ] at h
    unfold replaceSpace at h
    rw [List.head?_map] at h
    rcases hm : (pyStripL (step2 (step1 l))).head? with _ | a
    · rw [hm] at h
      exact absurd h (by simp)
    · rw [hm] at h
      simp only [Option.map_some'] at h
      have hac : (if a == ' ' then '_' else a) = c := by injection h
      rw [← hac]
      exact replaceSpace_not_ws a (pyStripL_head?_not_ws _ a hm)

theorem sanitizeList_core_length_le (l : List Char) :
    (replaceSpace (pyStripL (step2 (step1 l)))).length ≤ l.length := by
  have h1 : (step2 (step1 l)).length ≤ l.length := by
    have h := step2Aux_length (step1 l) false
    rw [step1_length] at h
    exact h
  have h2 : (pyStripL (step2 (step1 l))).length ≤ (step2 (step1 l)).length :=
    pyStripL_length_le _
  have h3 : (replaceSpace (pyStripL (step2 (step1 l)))).length =
      (pyStripL (step2 (step1 l))).length := List.length_map _ _
  omega

theorem sanitizeList_getLast?_not_ws (l : List Char) (hlen : l.length ≤ 50) (c : Char)
    (h : (sanitizeList l).getLast? = some c) : pyIsSpace c = false := by
  rw [sanitizeList_spelled] at h
  split_ifs at h with he
  · have hc : c = 'n' := by
      rw [show unknownChars.getLast? = some 'n' from rfl] at h
      injection h with h
      exact h.symm
    rw [hc]
    decide
  · rw [List.take_of_length_le (Nat.le_trans (sanitizeList_core_length_le l) hlen)] at h
    unfold replaceSpace at h
    rw [List.getLast?_map] at h
    rcases hm : (pyStripL (step2 (step1 l))).getLast? with _ | a
    · rw [hm] at h
      exact absurd h (by simp)
    · rw [hm] at h
      simp only [Option.map_some'] at h
      have hac : (if a == ' ' then '_' else a) = c := by injection h
      rw [← hac]
      exact replaceSpace_not_ws a (pyStripL_getLast?_not_ws _ a hm)

theorem sanitizeList_fixed (y : List Char)
    (hne : y ≠ []) (hlen : y.length ≤ 50)
    (hforbid : ∀ c ∈ y, pathUnsafe c = false)
    (hadj : noAdjWsB y = true)
    (hhead : ∀ c, y.head? = some c → pyIsSpace c = false)
    (hlast : ∀ c, y.getLast? = some c → pyIsSpace c = false)
    (hspace : ∀ c ∈ y, c ≠ ' ') :
    sanitizeList y = y := by
  have hnoslash : ∀ c ∈ y, c ≠ '/' := by
    intro c hc hcc
    have hu := hforbid c hc
    rw [hcc] at hu
    exact absurd hu (by decide)
  have hs1 : step1 y = y := step1_id y hforbid
  have hs2 : step2 y = y := step2Aux_false_id y hnoslash hadj
  have hstrip : pyStripL y = y := pyStripL_id y hhead hlast
  have hs5 : replaceSpace y = y := replaceSpace_id y hspace
  have hs6 : y.take 50 = y := List.take_of_length_le hlen
  rw [sanitizeList_spelled, hs1]
  show (if (replaceSpace (pyStripL (step2 y))).take 50 = [] then unknownChars
    else (replaceSpace (pyStripL (step2 y))).take 50) = y
  rw [hs2, hstrip, hs5, hs6, if_neg hne]

/-- Claim C7 (amended): for every input string, sanitize_filename yields a
non-empty string of at most 50 characters containing none of the nine
path-unsafe characters and no space; isolated non-space whitespace (such as a
tab) may remain, so the no-whitespace part of the original claim fails; and
sanitization is idempotent on every input of at most 50 characters (the
original unconditional idempotence fails only when the 50-character truncation
leaves a trailing whitespace character). -/
theorem C7_sanitize_amended (s : String) :
    sanitize_filename s ≠ "" ∧
    (sanitize_filename s).length ≤ 50 ∧
    (∀ c ∈ (sanitize_filename s).data, pathUnsafe c = false ∧ c ≠ ' ') ∧
    (s.length ≤ 50 → sanitize_filename (sanitize_filename s) = sanitize_filename s) := by
  refine ⟨?_, ?_, ?_, ?_⟩
  · intro hc
    apply sanitizeList_ne_nil s.data
    have h2 := congrArg String.data hc
    simpa using h2
  · show (sanitizeList s.data).length ≤ 50
    exact sanitizeList_length_le s.data
  · intro c hc
    exact ⟨sanitizeList_pathSafe s.data c hc, sanitizeList_no_space s.data c hc⟩
  · intro hlen
    show String.mk (sanitizeList (sanitizeList s.data)) = String.mk (sanitizeList s.data)
    congr 1
    exact sanitizeList_fixed (sanitizeList s.data)
      (sanitizeList_ne_nil s.data)
      (sanitizeList_length_le s.data)
      (fun c hc => sanitizeList_pathSafe s.data c hc)
      (sanitizeList_noAdjWs s.data)
      (fun c hc => sanitizeList_head?_not_ws s.data c hc)
      (fun c hc => sanitizeList_getLast?_not_ws s.data hlen c hc)
      (fun c hc => sanitizeList_no_space s.data c hc)

/-- Witness for claim C7 (amended): a short ordinary input is idempotent and
sanitizes to a non-empty name. -/
theorem C7_witness :
    sanitize_filename (sanitize_filename "Acme Corp") = sanitize_filename "Acme Corp" ∧
    sanitize_filename "Acme Corp" ≠ "" :=
  ⟨(C7_sanitize_amended "Acme Corp").2.2.2 (by decide), (C7_sanitize_amended "Acme Corp").1⟩

/-- Counterexample for claim C7: an isolated tab survives sanitization, so the
output can contain whitespace; and on a 51-character input whose truncation
ends in that tab, applying sanitization twice differs from applying it once. -/
theorem C7_counterexample :
    sanitize_filename (sanitize_filename (String.mk (List.replicate 49 'a' ++ ['\t', 'b']))) ≠
      sanitize_filename (String.mk (List.replicate 49 'a' ++ ['\t', 'b'])) ∧
    '\t' ∈ (sanitize_filename (String.mk ['a', '\t', 'b'])).data ∧
    pyIsSpace '\t' = true := by
  refine ⟨by decide, by decide, by decide⟩

/-! ## Theorems: the two filename sanitization rules differ (claim C8) -/

/-- Counterexample for claim C8: the generator keeps a dot while the session
runner's transcript-filename rule replaces every non-alphanumeric character,
so the two sanitization functions disagree already on the string a.b. -/
theorem C8_counterexample : sanitize_filename "a.b" ≠ resultsSanitize "a.b" := by decide

/-- Claim C8 (amended): the transcript filename is sanitized by its own rule -
every non-alphanumeric character becomes an underscore, with no truncation and
no emptiness fallback - which is not the rule of the question generator, though
it also yields names free of path-unsafe characters and whitespace. -/
theorem C8_results_sanitizer_properties (x : String) :
    (resultsSanitize x).length = x.length ∧
    (∀ c ∈ (resultsSanitize x).data, c.isAlphanum = true ∨ c = '_') ∧
    (∀ c ∈ (resultsSanitize x).data, pathUnsafe c = false ∧ pyIsSpace c = false) := by
  refine ⟨?_, ?_, ?_⟩
  · show (x.data.map fun c => if c.isAlphanum then c else '_').length = x.data.length
    exact List.length_map _ _
  · intro c hc
    have hc2 : c ∈ x.data.map (fun c => if c.isAlphanum then c else '_') := hc
    rcases List.mem_map.1 hc2 with ⟨a, _, rfl⟩
    by_cases ha : a.isAlphanum = true
    · rw [if_pos ha]
      exact Or.inl ha
    · rw [if_neg ha]
      exact Or.inr rfl
  · intro c hc
    have hc2 : c ∈ x.data.map (fun c => if c.isAlphanum then c else '_') := hc
    rcases List.mem_map.1 hc2 with ⟨a, _, rfl⟩
    by_cases ha : a.isAlphanum = true
    · rw [if_pos ha]
      exact ⟨alnum_not_pathUnsafe a ha, alnum_not_pyIsSpace a ha⟩
    · rw [if_neg ha]
      exact ⟨by decide, by decide⟩

end InterviewPractice

namespace InterviewPractice

/-- Witness for claim C8 (amended) at the concrete string a.b and the
underscore the session runner substitutes for the dot. -/
theorem C8_witness :
    (resultsSanitize "a.b").length = ("a.b" : String).length ∧
    (pathUnsafe '_' = false ∧ pyIsSpace '_' = false) :=
  ⟨(C8_results_sanitizer_properties "a.b").1,
   (C8_results_sanitizer_properties "a.b").2.2 '_' (by decide)⟩

end InterviewPractice
